import Mathlib

/-!
Verification of the URL-bypass aggregator module (the `BypassService` /
`ApiPerformanceTracker` / `ValidationService` / `FileService` code).

The JavaScript module is shallowly embedded: pure fragments become Lean
functions, the stateful resolve operation becomes an explicit
state-passing function over a cache map and a statistics map, and the
concurrent fan-out race is linearised in ranked list order (the claims
settled here do not depend on which valid response wins the race).
Machine floats of the source are modelled by exact rationals plus an
explicit `JsNum` type carrying the Infinity/NaN cases the score
computation can produce.
-/

/-! ### Configuration constants (CONFIG in the source) -/

/-- CONFIG.API.ERROR_KEYWORDS, transcribed verbatim from the source. -/
def ERROR_KEYWORDS : List String :=
  ["erro", "error", "404", "unsupported", "invalid", "failed", "null",
   "afk", "down", "off", "stop", "discord", "not", "none", "fall", "er", "inva"]

/-- CONFIG.API.SUCCESS_KEYWORDS, transcribed verbatim from the source. -/
def SUCCESS_KEYWORDS : List String :=
  ["sucesso", "ok", "done", "completed", "success", "valid", "authorized",
   "passed", "loadstring", "local", "https", "http", "game:HttpGet",
   "No stages or already authenticated",
   "You have been authenticated. Please proceed back to the application.",
   "key", "FREE", "link", "type"]

/-- CONFIG.API.RETRY_LIMIT. -/
def RETRY_LIMIT : Nat := 1

/-- CONFIG.API.RETRY_DELAY in milliseconds. -/
def RETRY_DELAY : Nat := 2000

/-- CONFIG.SERVER.TIMEOUT in milliseconds, as a rational (it enters the
float score arithmetic). -/
def SERVER_TIMEOUT : ℚ := 60000

/-- CONFIG.CACHE_DURATION = 10 * 60 * 1000 milliseconds. -/
def CACHE_DURATION : Nat := 600000

/-! ### ValidationService

The source builds, for each keyword, the regex `\b<keyword>\b` with the
case-insensitive flag and tests it against the response text.  The only
regex metacharacter occurring inside the keyword lists is `.` (in one
long success keyword), which matches any single character; every other
keyword character is a literal, compared case-insensitively.  `\b` is the
JS word boundary: a position where exactly one of the two surrounding
characters is in `[A-Za-z0-9_]` (positions outside the string count as
non-word). -/

/-- JS regex word character class `\w` = `[A-Za-z0-9_]`. -/
def isWordChar (c : Char) : Bool := c.isAlphanum || c = '_'

/-- Character of `s` at index `i`, with a non-word sentinel out of range. -/
def charAtD (s : List Char) (i : Nat) : Char := s.getD i ' '

/-- Word-character test at index `i` of `s`; out of range counts non-word. -/
def isWordAt (s : List Char) (i : Nat) : Bool := isWordChar (charAtD s i)

/-- JS `\b`: position `p` (between indices `p-1` and `p`) is a word
boundary when the word-ness of the two neighbouring positions differs. -/
def boundaryAt (s : List Char) (p : Nat) : Bool :=
  (if p = 0 then false else isWordAt s (p - 1)) != isWordAt s p

/-- One pattern atom of the compiled keyword regex: the keyword character
`.` is the any-character metachar; every other character matches
case-insensitively (the regex carries the `i` flag). -/
def charMatch (k c : Char) : Bool := (k == '.') || (k.toLower == c.toLower)

/-- The keyword pattern `\b<kw>\b` matches `s` starting at index `i`. -/
def matchesAt (kw s : List Char) (i : Nat) : Bool :=
  decide (i + kw.length ≤ s.length) &&
  ((List.range kw.length).all fun j => charMatch (charAtD kw j) (charAtD s (i + j))) &&
  boundaryAt s i && boundaryAt s (i + kw.length)

/-- `new RegExp('\\b' + kw + '\\b', 'i').test(s)`: the pattern matches at
some start position of `s`. -/
def testKeyword (kw s : String) : Bool :=
  (List.range (s.length + 1)).any fun i => matchesAt kw.data s.data i

/-- ValidationService.isErrorResponse, for string responses: a JS falsy
string is exactly the empty string. -/
def isErrorResponse (s : String) : Bool :=
  if s = "" then true
  else ERROR_KEYWORDS.any fun kw => testKeyword kw s

/-- ValidationService.isSuccessResponse, for string responses. -/
def isSuccessResponse (s : String) : Bool :=
  if s = "" then false
  else SUCCESS_KEYWORDS.any fun kw => testKeyword kw s

/-- The anchored shortcut regex `^[a-f0-9]{32}$` with the `i` flag:
character class test for one character. -/
def isHexChar (c : Char) : Bool :=
  (('0' ≤ c) && (c ≤ '9')) || (('a' ≤ c) && (c ≤ 'f')) || (('A' ≤ c) && (c ≤ 'F'))

/-- The whole string is exactly 32 hexadecimal characters. -/
def isHex32 (s : String) : Bool :=
  decide (s.length = 32) && s.data.all isHexChar

/-- ValidationService.isValidResponse, for string responses. -/
def isValidResponse (s : String) : Bool :=
  if s = "" then false
  else if isHex32 s then true
  else !(isErrorResponse s) && isSuccessResponse s

/-! ### ApiPerformanceTracker

The tracker stores per-endpoint statistics and derives a score through
JS float arithmetic.  The quantities involved are non-negative counters,
so the only non-finite values the score computation can meet are
`Infinity` (no data, or a nonzero value divided by zero) and `NaN`
(zero divided by zero); `JsNum` carries exactly those. -/

/-- One entry of ApiPerformanceTracker.stats:
`{ totalCalls, successCalls, totalTime }`. -/
structure ApiStat where
  totalCalls : Nat
  successCalls : Nat
  totalTime : ℚ
  deriving DecidableEq, Repr

/-- JS number as it occurs in the score computation: a finite rational,
positive Infinity, or NaN. -/
inductive JsNum where
  | fin : ℚ → JsNum
  | inf : JsNum
  | nan : JsNum
  deriving DecidableEq, Repr

/-- JS division restricted to the non-negative operands the tracker
produces: `x / 0` is `Infinity` for nonzero `x` and `NaN` for `0 / 0`. -/
def jsDiv : JsNum → JsNum → JsNum
  | .nan, _ => .nan
  | _, .nan => .nan
  | .inf, .inf => .nan
  | .inf, .fin _ => .inf
  | .fin _, .inf => .fin 0
  | .fin a, .fin b => if b = 0 then (if a = 0 then .nan else .inf) else .fin (a / b)

/-- JS `x || y` on numbers: keep `x` unless it is falsy (`0` or `NaN`). -/
def jsOr : JsNum → JsNum → JsNum
  | .fin a, y => if a = 0 then y else .fin a
  | .nan, y => y
  | .inf, _ => .inf

/-- ApiPerformanceTracker.getScore: `Infinity` without data, otherwise
`(totalTime / successCalls || TIMEOUT) / (successCalls / totalCalls || 0.1)`. -/
def getScore (stats : String → Option ApiStat) (apiUrl : String) : JsNum :=
  match stats apiUrl with
  | none => .inf
  | some stat =>
    if stat.totalCalls = 0 then .inf
    else
      let avgTime := jsOr (jsDiv (.fin stat.totalTime) (.fin stat.successCalls)) (.fin SERVER_TIMEOUT)
      let successRate := jsDiv (.fin stat.successCalls) (.fin stat.totalCalls)
      jsDiv avgTime (jsOr successRate (.fin (1 / 10)))

/-- ApiPerformanceTracker.record: always bumps `totalCalls`; bumps
`successCalls` and accumulates `totalTime` only on success.  A missing
entry starts from the zero record the source initialises. -/
def record (stats : String → Option ApiStat) (apiUrl : String) (responseTime : ℚ)
    (success : Bool) : String → Option ApiStat :=
  fun u =>
    if u = apiUrl then
      some ⟨((stats apiUrl).getD ⟨0, 0, 0⟩).totalCalls + 1,
            ((stats apiUrl).getD ⟨0, 0, 0⟩).successCalls + (if success then 1 else 0),
            ((stats apiUrl).getD ⟨0, 0, 0⟩).totalTime + (if success then responseTime else 0)⟩
    else stats u

/-- The comparator `getScore(a) - getScore(b)` interpreted as a `≤`
relation, with the ECMAScript rule that a NaN comparator value is
treated as `+0` (so `Infinity` ties with `Infinity`). -/
def jsLeB : JsNum → JsNum → Bool
  | .nan, _ => true
  | _, .nan => true
  | .inf, .inf => true
  | .inf, .fin _ => false
  | .fin _, .inf => true
  | .fin a, .fin b => decide (a ≤ b)

/-- Strict score comparison (`a` scores strictly less than `b`). -/
def jsLtB : JsNum → JsNum → Bool
  | .nan, _ => false
  | _, .nan => false
  | .inf, _ => false
  | .fin _, .inf => true
  | .fin a, .fin b => decide (a < b)

/-- An upstream API descriptor as stored in apis.json / apisDat.json:
`{ url, parse_json, response_key }`; identity is the `url` template. -/
structure Api where
  url : String
  parse_json : Bool
  response_key : String
  deriving DecidableEq, Repr

/-- The sort comparator of ApiPerformanceTracker.sortApis as a relation
on descriptors. -/
def leApi (stats : String → Option ApiStat) (a b : Api) : Prop :=
  jsLeB (getScore stats a.url) (getScore stats b.url) = true

instance decLeApi (stats : String → Option ApiStat) : DecidableRel (leApi stats) :=
  fun a b => inferInstanceAs (Decidable (jsLeB (getScore stats a.url) (getScore stats b.url) = true))

/-- ApiPerformanceTracker.sortApis: a stable sort by ascending score
(JS `Array.prototype.sort` is stable; it is modelled by insertion sort,
which is stable for the same comparator preorder). -/
def sortApis (stats : String → Option ApiStat) (apis : List Api) : List Api :=
  List.insertionSort (leApi stats) apis

/-! ### FileService cache (urls.json) -/

/-- One saved entry of urls.json: `{ response, timestamp }`. -/
structure CacheEntry where
  response : String
  timestamp : Nat
  deriving DecidableEq, Repr

/-- The staleness test of processUrl:
`savedUrl && (Date.now() - savedUrl.timestamp) < CONFIG.CACHE_DURATION`.
JS subtraction of a future timestamp is negative, hence below the
window, exactly as the truncated Nat subtraction is. -/
def cacheGet (cache : String → Option CacheEntry) (now : Nat) (url : String) :
    Option CacheEntry :=
  match cache url with
  | none => none
  | some e => if now - e.timestamp < CACHE_DURATION then some e else none

/-- FileService.saveUrl: write `{ response, timestamp: Date.now() }`
under the url key, leaving every other key unchanged. -/
def cachePut (cache : String → Option CacheEntry) (now : Nat) (url : String)
    (responseData : String) : String → Option CacheEntry :=
  fun u => if u = url then some ⟨responseData, now⟩ else cache u

/-! ### BypassService -/

/-- Outcome of one upstream HTTP attempt, after extraction of the raw
body or the configured JSON field: either a transport failure or a
response text, each with its measured elapsed time. -/
inductive AttemptOutcome where
  | netFail : ℚ → AttemptOutcome
  | response : String → ℚ → AttemptOutcome

/-- The environment a single processUrl call runs against: the remote
apis.json fetch result (`none` models a fetch failure, which
FileService.loadApis degrades to `[]`), the persisted apisDat.json
supplementary list, the clock, the tracker state the call starts from,
and the deterministic outcome each upstream would produce for this url. -/
structure Env where
  remoteFetch : Option (List Api)
  additionalApis : List Api
  now : Nat
  stats : String → Option ApiStat
  attemptOutcome : String → AttemptOutcome

/-- FileService.loadApis: the fetched list, or `[]` on fetch failure. -/
def loadApis (env : Env) : List Api := env.remoteFetch.getD []

/-- Observable side effects of the per-upstream attempt function:
network calls issued, backoff delays awaited, and the exact sequence of
ApiPerformanceTracker.record invocations. -/
structure AttemptTrace where
  networkCalls : Nat
  delaysAwaited : Nat
  records : List (String × ℚ × Bool)
  deriving DecidableEq, Repr

/-- The empty trace. -/
def emptyTrace : AttemptTrace := ⟨0, 0, []⟩

/-- Trace concatenation. -/
def appendTrace (a b : AttemptTrace) : AttemptTrace :=
  ⟨a.networkCalls + b.networkCalls, a.delaysAwaited + b.delaysAwaited,
   a.records ++ b.records⟩

/-- BypassService._tryApiWithRetry.  Returns the attempt result exactly
as the source does (the response text when it classifies Valid, `null`
otherwise) together with the trace of its side effects.  `aborted` is
the cancellation-signal state when the attempt starts; the catch branch
retries only while `attempt < RETRY_LIMIT` and not aborted (in the
not-aborted branch modelled here the second conjunct holds). -/
def tryApiWithRetry (ao : String → AttemptOutcome) (aborted : Bool) (api : Api)
    (attempt : Nat) : Option String × AttemptTrace :=
  if aborted then (none, emptyTrace)
  else
    match ao api.url with
    | .response r t =>
      if isValidResponse r then
        (some r, ⟨1, 0, [(api.url, t, true)]⟩)
      else
        if h : attempt < RETRY_LIMIT then
          let rest := tryApiWithRetry ao aborted api (attempt + 1)
          (rest.1, appendTrace ⟨1, 1, [(api.url, t, false)]⟩ rest.2)
        else (none, ⟨1, 0, [(api.url, t, false)]⟩)
    | .netFail t =>
      if h : attempt < RETRY_LIMIT then
        let rest := tryApiWithRetry ao aborted api (attempt + 1)
        (rest.1, appendTrace ⟨1, 1, [(api.url, t, false)]⟩ rest.2)
      else (none, ⟨1, 0, [(api.url, t, false)]⟩)
termination_by RETRY_LIMIT - attempt
decreasing_by all_goals omega

/-- The concurrent fan-out plus firstValid, linearised in ranked list
order: every descriptor is attempted (all requests are launched before
any result settles), and the first valid result in list order is the
adopted one. -/
def fanOut (ao : String → AttemptOutcome) (apis : List Api) :
    Option String × AttemptTrace :=
  match apis with
  | [] => (none, emptyTrace)
  | api :: rest =>
    let r := tryApiWithRetry ao false api 1
    let rr := fanOut ao rest
    (r.1.or rr.1, appendTrace r.2 rr.2)

/-- The two failure modes of processUrl: `Nenhuma API configurada` and
`Nenhuma API conseguiu processar a URL`. -/
inductive ResolveError where
  | noApis
  | allFailed
  deriving DecidableEq, Repr

/-- The successful outcome: a cache hit returning the saved response, or
a freshly resolved result. -/
inductive ResolveOutcome where
  | cacheHit : String → ResolveOutcome
  | fresh : String → ResolveOutcome
  deriving DecidableEq, Repr

/-- What one processUrl call amounts to: its return-or-throw, the
urls.json contents after the call, and the trace of upstream work. -/
structure ResolveResult where
  outcome : Except ResolveError ResolveOutcome
  cache : String → Option CacheEntry
  trace : AttemptTrace

/-- BypassService.processUrl: load the remote list (failing fast when it
is empty), rank it, consult the cache, otherwise fan out and save a
winning result. -/
def processUrl (env : Env) (cache : String → Option CacheEntry) (url : String) :
    ResolveResult :=
  if (loadApis env).isEmpty then ⟨.error .noApis, cache, emptyTrace⟩
  else
    match cacheGet cache env.now url with
    | some e => ⟨.ok (.cacheHit e.response), cache, emptyTrace⟩
    | none =>
      match fanOut env.attemptOutcome (sortApis env.stats (loadApis env)) with
      | (some r, tr) => ⟨.ok (.fresh r), cachePut cache env.now url r, tr⟩
      | (none, tr) => ⟨.error .allFailed, cache, tr⟩

/-! ### Supplementary list administration (apisDat.json) -/

/-- FileService.addAdditionalApi: refuse a url already present in the
supplementary list, otherwise append and persist. -/
def addAdditionalApi (additionalApis : List Api) (newApi : Api) : Bool × List Api :=
  if additionalApis.any fun api => api.url = newApi.url then (false, additionalApis)
  else (true, additionalApis ++ [newApi])

/-- Responses of the POST /admin/add-api handler. -/
inductive AddApiResult where
  | invalidData
  | existsGit
  | existsDat
  | added
  | addFailed
  deriving DecidableEq, Repr

/-- The POST /admin/add-api handler: validate the body, check the
remote-fetched list, check the supplementary list, then delegate to
FileService.addAdditionalApi; returns the response kind and the
supplementary list as persisted afterwards. -/
def addApiHandler (gitApis additionalApis : List Api) (newApi : Api) :
    AddApiResult × List Api :=
  if newApi.url = "" then (.invalidData, additionalApis)
  else if gitApis.any fun api => api.url = newApi.url then (.existsGit, additionalApis)
  else if additionalApis.any fun api => api.url = newApi.url then (.existsDat, additionalApis)
  else
    let r := addAdditionalApi additionalApis newApi
    if r.1 then (.added, r.2) else (.addFailed, r.2)

/-! ### Tracker state built from a sequence of record calls -/

/-- The tracker state before any request: `stats = {}`. -/
def emptyStats : String → Option ApiStat := fun _ => none

/-- Arguments of one ApiPerformanceTracker.record invocation. -/
structure RecordCall where
  apiUrl : String
  responseTime : ℚ
  success : Bool
  deriving DecidableEq, Repr

/-- Tracker state after a sequence of record calls starting from the
empty state. -/
def applyRecords (calls : List RecordCall) : String → Option ApiStat :=
  calls.foldl (fun s c => record s c.apiUrl c.responseTime c.success) emptyStats

/-- The documented tracker invariant: successes never exceed attempts. -/
def StatsInv (stats : String → Option ApiStat) : Prop :=
  ∀ u st, stats u = some st → st.successCalls ≤ st.totalCalls

/-- Modelled from the spec wording of the score, for comparison with the
source: average (with the large-constant fallback exactly when there are
no successes) divided by the success rate FLOORED at 0.1. -/
def scoreSpecFloored (stats : String → Option ApiStat) (apiUrl : String) : JsNum :=
  match stats apiUrl with
  | none => .inf
  | some stat =>
    if stat.totalCalls = 0 then .inf
    else
      .fin ((if stat.successCalls = 0 then SERVER_TIMEOUT
             else stat.totalTime / stat.successCalls) /
            max ((stat.successCalls : ℚ) / stat.totalCalls) (1 / 10))

/-! ### Concrete inputs used by witnesses and counterexamples -/

/-- A supplementary descriptor present only in apisDat.json. -/
def apiX : Api := ⟨"https://x/{url}", false, ""⟩

/-- An empty urls.json. -/
def emptyCache : String → Option CacheEntry := fun _ => none

/-- Remote fetch yields an empty list while the supplementary list holds
one descriptor. -/
def envC1 : Env := ⟨some [], [apiX], 0, fun _ => none, fun _ => .netFail 0⟩

/-- One endpoint with 1 success out of 20 calls and 100 ms cumulative
success latency: success rate 0.05, strictly between 0 and 0.1. -/
def statsC2 : String → Option ApiStat :=
  fun u => if u = "apiA" then some ⟨20, 1, 100⟩ else none

/-- Tracker state knowing a single endpoint with one recorded success. -/
def statsC7 : String → Option ApiStat :=
  fun u => if u = "apiB" then some ⟨2, 1, 50⟩ else none

/-- A registry with one configured upstream. -/
def envC6 : Env :=
  ⟨some [⟨"https://w/{url}", false, ""⟩], [], 1000, fun _ => none, fun _ => .netFail 0⟩

/-- A urls.json holding one recently recorded entry. -/
def cacheC6 : String → Option CacheEntry :=
  fun u => if u = "https://x" then some ⟨"cached", 500⟩ else none

/-- Remote fetch failed (degrades to the empty list). -/
def envC9 : Env := ⟨none, [], 0, fun _ => none, fun _ => .netFail 0⟩

/-- Every upstream attempt fails at the transport level after 7 ms. -/
def aoC10 : String → AttemptOutcome := fun _ => .netFail 7

/-! ### Helper lemmas about the score -/

lemma getScore_none (stats : String → Option ApiStat) (u : String)
    (h : stats u = none) : getScore stats u = .inf := by
  simp [getScore, h]

lemma getScore_zeroTotal (stats : String → Option ApiStat) (u : String) (st : ApiStat)
    (h : stats u = some st) (h0 : st.totalCalls = 0) : getScore stats u = .inf := by
  simp [getScore, h, h0]

lemma getScore_succ_pos (stats : String → Option ApiStat) (u : String) (st : ApiStat)
    (h : stats u = some st) (h0 : st.totalCalls ≠ 0) (hs : st.successCalls ≠ 0) :
    getScore stats u =
      .fin ((if st.totalTime = 0 then SERVER_TIMEOUT else st.totalTime / st.successCalls) /
            ((st.successCalls : ℚ) / st.totalCalls)) := by
  have hsq : (st.successCalls : ℚ) ≠ 0 := Nat.cast_ne_zero.mpr hs
  have htq : (st.totalCalls : ℚ) ≠ 0 := Nat.cast_ne_zero.mpr h0
  have hrate : (st.successCalls : ℚ) / st.totalCalls ≠ 0 := div_ne_zero hsq htq
  by_cases ht : st.totalTime = 0
  · have : st.totalTime / (st.successCalls : ℚ) = 0 := by rw [ht]; simp
    simp [getScore, h, h0, jsDiv, jsOr, hsq, hrate, ht, this, SERVER_TIMEOUT]
  · have : st.totalTime / (st.successCalls : ℚ) ≠ 0 := div_ne_zero ht hsq
    simp [getScore, h, h0, jsDiv, jsOr, hsq, hrate, ht, this]

lemma getScore_succ_zero (stats : String → Option ApiStat) (u : String) (st : ApiStat)
    (h : stats u = some st) (h0 : st.totalCalls ≠ 0) (hs : st.successCalls = 0)
    (ht : st.totalTime = 0) :
    getScore stats u = .fin (SERVER_TIMEOUT / (1 / 10)) := by
  have htq : (st.totalCalls : ℚ) ≠ 0 := Nat.cast_ne_zero.mpr h0
  have hz : (0 : ℚ) / (st.totalCalls : ℚ) = 0 := by simp
  simp [getScore, h, h0, jsDiv, jsOr, hs, ht, hz, SERVER_TIMEOUT]

lemma getScore_shape (stats : String → Option ApiStat) (u : String) :
    getScore stats u = .inf ∨ ∃ q, getScore stats u = .fin q := by
  cases hh : stats u with
  | none => exact .inl (getScore_none stats u hh)
  | some st =>
    by_cases h0 : st.totalCalls = 0
    · exact .inl (getScore_zeroTotal stats u st hh h0)
    · by_cases hs : st.successCalls = 0
      · by_cases ht : st.totalTime = 0
        · exact .inr ⟨_, getScore_succ_zero stats u st hh h0 hs ht⟩
        · refine .inl ?_
          have htq : (st.totalCalls : ℚ) ≠ 0 := Nat.cast_ne_zero.mpr h0
          have hz : (0 : ℚ) / (st.totalCalls : ℚ) = 0 := by simp
          simp [getScore, hh, h0, jsDiv, jsOr, hs, ht, hz]
      · exact .inr ⟨_, getScore_succ_pos stats u st hh h0 hs⟩

lemma jsLeB_total (x y : JsNum) : jsLeB x y = true ∨ jsLeB y x = true := by
  cases x <;> cases y <;> first
    | exact .inl rfl
    | exact .inr rfl
    | (simp [jsLeB]; exact le_total _ _)

instance instTotalLeApi (stats : String → Option ApiStat) : IsTotal Api (leApi stats) where
  total a b := jsLeB_total (getScore stats a.url) (getScore stats b.url)

instance instTransLeApi (stats : String → Option ApiStat) : IsTrans Api (leApi stats) where
  trans a b c hab hbc := by
    unfold leApi at hab hbc ⊢
    rcases getScore_shape stats a.url with ha | ⟨qa, ha⟩ <;>
      rcases getScore_shape stats b.url with hb | ⟨qb, hb⟩ <;>
        rcases getScore_shape stats c.url with hc | ⟨qc, hc⟩ <;>
          (rw [ha, hb] at hab; rw [hb, hc] at hbc; rw [ha, hc]; simp_all [jsLeB])
    exact le_trans hab hbc

lemma sortApis_sorted (stats : String → Option ApiStat) (l : List Api) :
    List.Sorted (leApi stats) (sortApis stats l) :=
  List.sorted_insertionSort (leApi stats) l

/-! ### Claim theorems -/

/-- C3: every response text matching the 32-character hexadecimal token
pattern classifies as Valid, regardless of which error or success
keywords it would otherwise match. -/
theorem classify_hex32_shortcut (s : String) (h : isHex32 s = true) :
    isValidResponse s = true := by
  have hlen : s.length = 32 :=
    of_decide_eq_true ((Bool.and_eq_true _ _).mp h).1
  have hne : s ≠ "" := by
    intro he
    rw [he] at hlen
    simp at hlen
  unfold isValidResponse
  rw [if_neg hne, if_pos h]

/-- Witness for C3: a concrete 32-hex-character response is Valid. -/
theorem classify_hex32_shortcut_witness :
    isValidResponse "a3f1a3f1a3f1a3f1a3f1a3f1a3f1a3f1" = true :=
  classify_hex32_shortcut _ (by decide)

/-- C5: for a non-empty response not matching the 32-hex shortcut,
classification is Valid iff no error keyword matches as a
case-insensitive whole word and some success keyword does; the empty
response is Invalid. -/
theorem classify_keyword_rule :
    (∀ s : String, s ≠ "" → isHex32 s = false →
      (isValidResponse s = true ↔
        ((∀ kw ∈ ERROR_KEYWORDS, testKeyword kw s = false) ∧
         ∃ kw ∈ SUCCESS_KEYWORDS, testKeyword kw s = true))) ∧
    isValidResponse "" = false := by
  constructor
  · intro s hne hhex
    unfold isValidResponse isErrorResponse isSuccessResponse
    rw [if_neg hne, if_neg hne, if_neg hne, hhex]
    simp only [Bool.ite_eq_true_distrib]
    constructor
    · intro h
      obtain ⟨hnerr, hsucc⟩ := Bool.and_eq_true_iff.mp h
      refine ⟨?_, ?_⟩
      · intro kw hkw
        rcases hb : testKeyword kw s with _ | _
        · rfl
        · exfalso
          have : ERROR_KEYWORDS.any (fun kw => testKeyword kw s) = true :=
            List.any_eq_true.mpr ⟨kw, hkw, hb⟩
          rw [this] at hnerr
          simp at hnerr
      · exact List.any_eq_true.mp hsucc
    · rintro ⟨hnerr, hsucc⟩
      refine Bool.and_eq_true_iff.mpr ⟨?_, List.any_eq_true.mpr hsucc⟩
      rcases hb : ERROR_KEYWORDS.any (fun kw => testKeyword kw s) with _ | _
      · rfl
      · obtain ⟨kw, hkw, hmatch⟩ := List.any_eq_true.mp hb
        rw [hnerr kw hkw] at hmatch
        cases hmatch
  · rfl

/-- Witness for C5: "ok" matches no error keyword, matches the success
keyword "ok", and classifies Valid through the keyword rule. -/
theorem classify_keyword_rule_witness : isValidResponse "ok" = true :=
  (classify_keyword_rule.1 "ok" (by decide) (by decide)).mpr (by decide)

/-- Counterexample for C2: for the endpoint with 1 success in 20 calls
(success rate 0.05, strictly between 0 and 0.1) and 100 ms cumulative
latency the source divides by the rate itself, giving score 2000, while
the claimed floor at 0.1 would give 1000. -/
theorem tracker_score_floor_counterexample :
    getScore statsC2 "apiA" ≠ scoreSpecFloored statsC2 "apiA" ∧
    getScore statsC2 "apiA" = .fin 2000 ∧
    scoreSpecFloored statsC2 "apiA" = .fin 1000 := by
  have hstat : statsC2 "apiA" = some ⟨20, 1, 100⟩ := by decide
  have h2 : getScore statsC2 "apiA" = .fin 2000 := by
    rw [getScore_succ_pos statsC2 "apiA" ⟨20, 1, 100⟩ hstat (by decide) (by decide)]
    norm_num
  have h1 : scoreSpecFloored statsC2 "apiA" = .fin 1000 := by
    have hmax : ((1 : ℚ) / 20) ⊔ ((1 : ℚ) / 10) = 1 / 10 := by
      rw [sup_eq_right.mpr]
      norm_num
    simp only [scoreSpecFloored, hstat]
    norm_num [hmax]
  refine ⟨?_, h2, h1⟩
  rw [h2, h1]
  simp only [ne_eq, JsNum.fin.injEq]
  norm_num

/-- C2 (amended): the score is `Infinity` for an endpoint with no entry
or zero attempts; otherwise, under the tracker invariant that zero
successes force zero cumulative latency, it equals the average success
latency — with the large-constant fallback whenever that average
evaluates to zero or is undefined, i.e. whenever the cumulative latency
is zero — divided by the success rate when the rate is nonzero and by
0.1 only when the rate is zero (the rate is NOT floored at 0.1). -/
theorem tracker_score_formula (stats : String → Option ApiStat) (url : String) :
    (stats url = none → getScore stats url = .inf) ∧
    (∀ st, stats url = some st → st.totalCalls = 0 → getScore stats url = .inf) ∧
    (∀ st, stats url = some st → st.totalCalls ≠ 0 →
      (st.successCalls = 0 → st.totalTime = 0) →
      getScore stats url =
        .fin ((if st.totalTime = 0 then SERVER_TIMEOUT
               else st.totalTime / st.successCalls) /
              (if st.successCalls = 0 then 1 / 10
               else (st.successCalls : ℚ) / st.totalCalls))) := by
  refine ⟨fun h => getScore_none stats url h,
          fun st h h0 => getScore_zeroTotal stats url st h h0,
          fun st h h0 hzt => ?_⟩
  by_cases hs : st.successCalls = 0
  · rw [getScore_succ_zero stats url st h h0 hs (hzt hs)]
    rw [hzt hs]
    simp [hs]
  · rw [getScore_succ_pos stats url st h h0 hs]
    simp [hs]

/-- Witness for C2: the closed form evaluated at the 1-success-in-20
endpoint gives score 2000 (average 100 divided by rate 0.05). -/
theorem tracker_score_formula_witness : getScore statsC2 "apiA" = .fin 2000 := by
  have h := (tracker_score_formula statsC2 "apiA").2.2 ⟨20, 1, 100⟩ (by decide)
    (by decide) (fun hcon => absurd hcon (by decide))
  rw [h]
  norm_num

/-- C7: an endpoint with zero recorded attempts scores strictly above
any endpoint with at least one recorded success, so sortApis always
places the endpoint with a recorded success before the unknown one. -/
theorem tracker_unknown_ranks_last (stats : String → Option ApiStat) (a b : Api)
    (ha : stats a.url = none ∨ ∃ st, stats a.url = some st ∧ st.totalCalls = 0)
    (hb : ∃ st, stats b.url = some st ∧ 1 ≤ st.successCalls ∧
      st.successCalls ≤ st.totalCalls) :
    jsLtB (getScore stats b.url) (getScore stats a.url) = true ∧
    ∀ (l : List Api) (i j : Nat) (hi : i < (sortApis stats l).length)
        (hj : j < (sortApis stats l).length),
      (sortApis stats l).get ⟨i, hi⟩ = a → (sortApis stats l).get ⟨j, hj⟩ = b →
      j < i := by
  have hsa : getScore stats a.url = .inf := by
    rcases ha with h | ⟨st, h, h0⟩
    · exact getScore_none stats a.url h
    · exact getScore_zeroTotal stats a.url st h h0
  obtain ⟨st, hst, h1, h2⟩ := hb
  have h0 : st.totalCalls ≠ 0 := by omega
  have hs : st.successCalls ≠ 0 := by omega
  have hsb := getScore_succ_pos stats b.url st hst h0 hs
  constructor
  · rw [hsa, hsb]
    rfl
  · intro l i j hi hj hia hjb
    have hne : a ≠ b := by
      intro he
      rw [he, hsb] at hsa
      cases hsa
    rcases Nat.lt_trichotomy i j with hlt | heq | hgt
    · exfalso
      have hrel := (sortApis_sorted stats l).rel_get_of_lt
        (a := ⟨i, hi⟩) (b := ⟨j, hj⟩) (Fin.mk_lt_mk.mpr hlt)
      rw [hia, hjb] at hrel
      unfold leApi at hrel
      rw [hsa, hsb] at hrel
      cases hrel
    · exfalso
      apply hne
      rw [← hia, ← hjb]
      subst heq
      rfl
    · exact hgt

/-- Witness for C7: with one endpoint carrying a recorded success and
another unknown, the known endpoint's score is strictly smaller. -/
theorem tracker_unknown_ranks_last_witness :
    jsLtB (getScore statsC7 "apiB") (getScore statsC7 "apiA") = true :=
  (tracker_unknown_ranks_last statsC7 ⟨"apiA", false, ""⟩ ⟨"apiB", false, ""⟩
    (Or.inl (by decide)) ⟨⟨2, 1, 50⟩, by decide, by decide, by decide⟩).1

/-- Invariant preservation for one record call. -/
lemma record_preserves_inv (stats : String → Option ApiStat) (url : String)
    (t : ℚ) (b : Bool) (h : StatsInv stats) : StatsInv (record stats url t b) := by
  intro u st hu
  unfold record at hu
  by_cases he : u = url
  · rw [if_pos he] at hu
    obtain rfl := (Option.some_inj.mp hu).symm
    cases hst : stats url with
    | none => simp [hst]; cases b <;> simp
    | some s0 =>
      have hs0 := h url s0 hst
      simp [hst]
      cases b <;> simp <;> omega
  · rw [if_neg he] at hu
    exact h u st hu

/-- Invariant preservation along a sequence of record calls. -/
lemma foldl_record_inv (calls : List RecordCall) (s : String → Option ApiStat)
    (h : StatsInv s) :
    StatsInv (calls.foldl (fun s c => record s c.apiUrl c.responseTime c.success) s) := by
  induction calls generalizing s with
  | nil => exact h
  | cons c cs ih => exact ih _ (record_preserves_inv s c.apiUrl c.responseTime c.success h)

/-- C8: after any sequence of record calls from the empty state every
endpoint satisfies successfulAttempts ≤ totalAttempts, because record
always increments the attempt counter, increments the success counter
and accumulates latency only on success, and touches no other key. -/
theorem record_monotonicity :
    (∀ calls : List RecordCall, StatsInv (applyRecords calls)) ∧
    (∀ (stats : String → Option ApiStat) (url : String) (t : ℚ) (b : Bool),
      record stats url t b url =
        some ⟨((stats url).getD ⟨0, 0, 0⟩).totalCalls + 1,
              ((stats url).getD ⟨0, 0, 0⟩).successCalls + (if b then 1 else 0),
              ((stats url).getD ⟨0, 0, 0⟩).totalTime + (if b then t else 0)⟩ ∧
      ∀ u, u ≠ url → record stats url t b u = stats u) := by
  refine ⟨fun calls => foldl_record_inv calls emptyStats ?_,
          fun stats url t b => ⟨by simp [record], fun u hu => by simp [record, hu]⟩⟩
  intro u st h
  simp [emptyStats] at h

/-- Witness for C8: two record calls against one endpoint, one success
then one failure, leave it at 1 success out of 2 attempts. -/
theorem record_monotonicity_witness :
    ∃ st : ApiStat, applyRecords [⟨"a", 5, true⟩, ⟨"a", 7, false⟩] "a" = some st ∧
      st.successCalls ≤ st.totalCalls := by
  have hval : applyRecords [⟨"a", 5, true⟩, ⟨"a", 7, false⟩] "a" = some ⟨2, 1, 5⟩ := by
    simp [applyRecords, record, emptyStats]
  exact ⟨⟨2, 1, 5⟩, hval,
    record_monotonicity.1 [⟨"a", 5, true⟩, ⟨"a", 7, false⟩] "a" ⟨2, 1, 5⟩ hval⟩

/-- C4: the admin add-api operation refuses (and does not append) any
descriptor whose endpoint template is already present in the
remote-fetched list or in the supplementary list, appends it otherwise,
and thereby preserves uniqueness of endpoint identities in the
supplementary list. -/
theorem supplementary_dedup (gitApis adds : List Api) (newApi : Api)
    (hurl : newApi.url ≠ "") :
    ((gitApis ++ adds).any (fun api => api.url = newApi.url) = true →
      (addApiHandler gitApis adds newApi).1 ≠ .added ∧
      (addApiHandler gitApis adds newApi).2 = adds) ∧
    ((gitApis ++ adds).any (fun api => api.url = newApi.url) = false →
      (addApiHandler gitApis adds newApi).1 = .added ∧
      (addApiHandler gitApis adds newApi).2 = adds ++ [newApi]) ∧
    ((adds.map Api.url).Nodup →
      (((addApiHandler gitApis adds newApi).2).map Api.url).Nodup) := by
  refine ⟨?_, ?_, ?_⟩
  · intro h
    rw [List.any_append] at h
    unfold addApiHandler
    rw [if_neg hurl]
    by_cases hg : gitApis.any (fun api => api.url = newApi.url) = true
    · simp [hg]
    · have hd : adds.any (fun api => api.url = newApi.url) = true := by
        rcases Bool.or_eq_true_iff.mp h with h' | h'
        · exact absurd h' hg
        · exact h'
      simp [hg, hd]
  · intro h
    rw [List.any_append, Bool.or_eq_false_iff] at h
    obtain ⟨hg, hd⟩ := h
    simp [addApiHandler, addAdditionalApi, hurl, hg, hd]
  · intro hnd
    unfold addApiHandler
    rw [if_neg hurl]
    by_cases hg : gitApis.any (fun api => api.url = newApi.url) = true
    · simpa [hg] using hnd
    · by_cases hd : adds.any (fun api => api.url = newApi.url) = true
      · simpa [hg, hd] using hnd
      · simp only [hg, hd, addAdditionalApi, Bool.false_eq_true, if_false, if_true]
        rw [List.map_append]
        refine List.Nodup.append hnd (by simp) ?_
        intro x hx1 hx2
        simp only [List.map_cons, List.map_nil, List.mem_singleton] at hx2
        obtain ⟨a, haa, hau⟩ := List.mem_map.mp hx1
        apply hd
        rw [List.any_eq_true]
        exact ⟨a, haa, by rw [hau, hx2]; simp⟩

/-- Witness for C4: adding a descriptor to empty lists succeeds and
appends it. -/
theorem supplementary_dedup_witness :
    (addApiHandler [] [] apiX).1 = .added ∧
    (addApiHandler [] [] apiX).2 = [] ++ [apiX] :=
  (supplementary_dedup [] [] apiX (by decide)).2.1 (by decide)

/-- Counterexample for C1: with a failed-or-empty remote fetch and a
non-empty supplementary list, resolve still fails with
NoUpstreamsConfigured although the combined remote-plus-supplementary
list is non-empty — processUrl never consults the supplementary list. -/
theorem resolver_combined_list_counterexample :
    (processUrl envC1 emptyCache "https://t").outcome = .error .noApis ∧
    loadApis envC1 ++ envC1.additionalApis ≠ [] := by
  refine ⟨rfl, by decide⟩

/-- C1 (amended): resolve obtains its upstream list from the remote
fetch alone and never consults the locally persisted supplementary
list; it fails with NoUpstreamsConfigured exactly when the remote list
is empty (a failed fetch degrading to the empty list), regardless of
the supplementary list. -/
theorem resolver_remote_only (env : Env) (cache : String → Option CacheEntry)
    (url : String) :
    ((processUrl env cache url).outcome = .error .noApis ↔ loadApis env = []) ∧
    ∀ adds, processUrl { env with additionalApis := adds } cache url =
      processUrl env cache url := by
  refine ⟨⟨?_, ?_⟩, fun adds => rfl⟩
  · intro h
    cases hl : loadApis env with
    | nil => rfl
    | cons a l =>
      exfalso
      rw [processUrl, hl] at h
      simp only [List.isEmpty_cons, Bool.false_eq_true, if_false] at h
      rcases hc : cacheGet cache env.now url with _ | e
      · rcases hf : fanOut env.attemptOutcome (sortApis env.stats (a :: l)) with ⟨r, tr⟩
        rcases r with _ | v
        · rw [hc, hf] at h
          simp at h
        · rw [hc, hf] at h
          simp at h
      · rw [hc] at h
        simp at h
  · intro h
    rw [processUrl, h]
    rfl

/-- C6: the cache lookup misses exactly when the entry is absent or at
least the 10-minute window old, and on a hit (with a configured
registry) processUrl returns the cached response as a cache hit with no
upstream work and an unchanged cache. -/
theorem cache_window_semantics (env : Env) (cache : String → Option CacheEntry)
    (url : String) :
    (cacheGet cache env.now url = none ↔
      cache url = none ∨ ∃ e, cache url = some e ∧
        (CACHE_DURATION : ℤ) ≤ (env.now : ℤ) - (e.timestamp : ℤ)) ∧
    ∀ e, loadApis env ≠ [] → cacheGet cache env.now url = some e →
      processUrl env cache url = ⟨.ok (.cacheHit e.response), cache, emptyTrace⟩ := by
  constructor
  · cases hc : cache url with
    | none => simp [cacheGet, hc]
    | some e =>
      simp only [cacheGet, hc]
      have hCD : CACHE_DURATION = 600000 := rfl
      constructor
      · intro h
        by_cases hlt : env.now - e.timestamp < CACHE_DURATION
        · rw [if_pos hlt] at h
          exact Option.noConfusion h
        · exact Or.inr ⟨e, rfl, by omega⟩
      · intro h
        rcases h with h | ⟨e', he', hge⟩
        · exact Option.noConfusion h
        · obtain rfl : e' = e := (Option.some_inj.mp he').symm
          rw [if_neg (by omega)]
  · intro e hne hget
    cases hl : loadApis env with
    | nil => exact absurd hl hne
    | cons a l =>
      rw [processUrl, hl, hget]
      simp

/-- Witness for C6: a 500 ms-old entry is a hit at a 10-minute window
and processUrl returns it without any upstream work. -/
theorem cache_window_semantics_witness :
    processUrl envC6 cacheC6 "https://x" =
      ⟨.ok (.cacheHit "cached"), cacheC6, emptyTrace⟩ :=
  (cache_window_semantics envC6 cacheC6 "https://x").2 ⟨"cached", 500⟩
    (by decide) (by decide)

/-- C9: whenever processUrl fails (NoUpstreamsConfigured or
AllUpstreamsFailed) the cache contents are unchanged at every key; only
a successful resolution writes the cache. -/
theorem failure_leaves_cache_unchanged (env : Env)
    (cache : String → Option CacheEntry) (url : String) (err : ResolveError)
    (h : (processUrl env cache url).outcome = .error err) :
    ∀ k, (processUrl env cache url).cache k = cache k := by
  intro k
  by_cases he : (loadApis env).isEmpty
  · simp [processUrl, he]
  · rcases hc : cacheGet cache env.now url with _ | e
    · rcases hf : fanOut env.attemptOutcome (sortApis env.stats (loadApis env))
        with ⟨r, tr⟩
      rcases r with _ | v
      · simp [processUrl, he, hc, hf]
      · exfalso
        rw [processUrl] at h
        rw [if_neg he, hc, hf] at h
        simp at h
    · simp [processUrl, he, hc]

/-- Witness for C9: a failed remote fetch yields NoUpstreamsConfigured
and leaves the (empty) cache untouched. -/
theorem failure_leaves_cache_unchanged_witness :
    (processUrl envC9 emptyCache "https://t").cache "k" = emptyCache "k" :=
  failure_leaves_cache_unchanged envC9 emptyCache "https://t" .noApis rfl "k"

/-- Helper: one first attempt issues at most one network call. -/
lemma tryApi_networkCalls_le_one (ao : String → AttemptOutcome) (api : Api)
    (ab : Bool) : (tryApiWithRetry ao ab api 1).2.networkCalls ≤ 1 := by
  rw [tryApiWithRetry]
  rcases ab with _ | _
  · rcases ao api.url with t | ⟨r, t⟩
    · simp [RETRY_LIMIT, emptyTrace]
    · by_cases hv : isValidResponse r = true <;> simp [hv, RETRY_LIMIT]
  · simp [emptyTrace]

/-- C10: with RETRY_LIMIT = 1 and attempts numbered from 1 the retry
branch is dead: an attempt never awaits the backoff delay, issues at
most one network call (and the fan-out at most one per descriptor), a
transport failure or Invalid classification yields null after exactly
one failure record, and an attempt that starts after cancellation
returns null with no network call and no record. -/
theorem retry_branch_unreachable (ao : String → AttemptOutcome) (api : Api) :
    tryApiWithRetry ao true api 1 = (none, emptyTrace) ∧
    (tryApiWithRetry ao false api 1).2.delaysAwaited = 0 ∧
    (tryApiWithRetry ao false api 1).2.networkCalls ≤ 1 ∧
    (∀ t, ao api.url = .netFail t →
      tryApiWithRetry ao false api 1 = (none, ⟨1, 0, [(api.url, t, false)]⟩)) ∧
    (∀ r t, ao api.url = .response r t → isValidResponse r = false →
      tryApiWithRetry ao false api 1 = (none, ⟨1, 0, [(api.url, t, false)]⟩)) ∧
    (∀ apis : List Api, (fanOut ao apis).2.networkCalls ≤ apis.length) := by
  refine ⟨by rw [tryApiWithRetry]; simp, ?_, tryApi_networkCalls_le_one ao api false,
    ?_, ?_, ?_⟩
  · rw [tryApiWithRetry]
    rcases ao api.url with t | ⟨r, t⟩
    · simp [RETRY_LIMIT]
    · by_cases hv : isValidResponse r = true <;> simp [hv, RETRY_LIMIT]
  · intro t ht
    rw [tryApiWithRetry, ht]
    simp [RETRY_LIMIT]
  · intro r t ht hv
    rw [tryApiWithRetry, ht]
    simp [hv, RETRY_LIMIT]
  · intro apis
    induction apis with
    | nil => simp [fanOut, emptyTrace]
    | cons a rest ih =>
      have h1 := tryApi_networkCalls_le_one ao a false
      simp only [fanOut, appendTrace, List.length_cons]
      omega

/-- Witness for C10: a transport failure after 7 ms yields null with one
network call, no delay, and a single failure record. -/
theorem retry_branch_unreachable_witness :
    tryApiWithRetry aoC10 false ⟨"apiZ", false, ""⟩ 1 =
      (none, ⟨1, 0, [("apiZ", 7, false)]⟩) :=
  (retry_branch_unreachable aoC10 ⟨"apiZ", false, ""⟩).2.2.2.1 7 rfl
